import Mathlib

/-!
Verification development for the Unite_1inch repository.

The repository is a collection of demo scripts that build, sign and settle
1inch limit orders, with a Uniswap V2 router fallback.  This file gives a
shallow embedding of the order data model, of the hashing pipelines, of the
maker-traits builders, of the fallback swap submitters, of the balance
checkers and of the demo workflows, and proves or refutes the frozen claims
about them.

External chain interactions (provider, ERC-20 contracts, router quotes) are
modelled as an explicit environment record; each workflow is a pure function
of that environment that returns its result together with the list of
side-effecting events it issued, in issue order.
-/

namespace Unite

/-! ## Keccak-256

`ethers.keccak256` is the actual Keccak-256 function (original pad10*1
padding, rate 1088).  The demos hash ABI-encoded byte strings with it, so we
implement it executably over byte lists (`List Nat`, each element < 256).
-/

/-- Rotate a 64-bit lane left by `n` (n < 64). -/
def rotl64 (x n : Nat) : Nat :=
  ((x <<< n) ||| (x >>> (64 - n))) % (2 ^ 64)

/-- 64-bit bitwise complement. -/
def w64not (x : Nat) : Nat := x ^^^ (2 ^ 64 - 1)

/-- The 1600-bit sponge state is kept packed in a single natural number
(lane `i` occupies bits `64*i .. 64*i+63`); this keeps kernel evaluation of
the permutation in accelerated big-integer arithmetic. -/
def lane (st : Nat) (i : Nat) : Nat := (st >>> (64 * i)) &&& (2 ^ 64 - 1)

/-- Pack a list of 64-bit lanes (lane 0 first) into one state number. -/
def packLanes (l : List Nat) : Nat := l.foldr (fun v acc => v + (acc <<< 64)) 0

/-- The 24 Keccak-f[1600] round constants (decimal; these are the standard
FIPS 202 values 0x0000000000000001, 0x0000000000008082, ...,
0x8000000080008008). -/
def keccakRC : List Nat :=
  [1, 32898,
   9223372036854808714, 9223372039002292224,
   32907, 2147483649,
   9223372039002292353, 9223372036854808585,
   138, 136,
   2147516425, 2147483658,
   2147516555, 9223372036854775947,
   9223372036854808713, 9223372036854808579,
   9223372036854808578, 9223372036854775936,
   32778, 9223372039002259466,
   9223372039002292353, 9223372036854808704,
   2147483649, 9223372039002292232]

/-- Keccak rotation offsets, row by row (`y = 0` first); lane `x + 5*y`
gets `keccakRho.getD (x + 5*y)`. -/
def keccakRhoRows : List (List Nat) :=
  [[0, 1, 62, 28, 27],
   [36, 44, 6, 55, 20],
   [3, 10, 43, 25, 39],
   [41, 45, 15, 21, 8],
   [18, 2, 61, 56, 14]]

/-- Flat rotation-offset table, indexed by lane index `x + 5*y`. -/
def keccakRho : List Nat := keccakRhoRows.foldr List.append []

/-- Column parity for the theta step. -/
def thetaC (st : Nat) (x : Nat) : Nat :=
  lane st x ^^^ lane st (x + 5) ^^^ lane st (x + 10) ^^^ lane st (x + 15) ^^^ lane st (x + 20)

/-- Theta-step mixing value. -/
def thetaD (st : Nat) (x : Nat) : Nat :=
  thetaC st ((x + 4) % 5) ^^^ rotl64 (thetaC st ((x + 1) % 5)) 1

/-- One Keccak-f round: theta, rho+pi, chi, iota (the iota step XORs the
round constant into lane 0, which on the packed state is a plain XOR). -/
def keccakRound (st : Nat) (rc : Nat) : Nat :=
  let a := packLanes ((List.range 25).map (fun i => lane st i ^^^ thetaD st (i % 5)))
  let b := packLanes ((List.range 25).map (fun j =>
    let x := (3 * (j / 5) + j % 5) % 5
    let y := j % 5
    rotl64 (lane a (x + 5 * y)) (keccakRho.getD (x + 5 * y) 0)))
  let c := packLanes ((List.range 25).map (fun j =>
    let x := j % 5
    let y := j / 5
    lane b j ^^^ (w64not (lane b ((x + 1) % 5 + 5 * y)) &&& lane b ((x + 2) % 5 + 5 * y))))
  c ^^^ rc

/-- Round iteration.  The conditional (with identical branches) forces the
accumulated state to a numeral before recursing, which keeps kernel stack
usage bounded when proofs evaluate the hash by reduction. -/
def keccakFGo : List Nat → Nat → Nat
  | [], s => s
  | rc :: rest, s =>
    if s % 2 = 0 then keccakFGo rest (keccakRound s rc)
    else keccakFGo rest (keccakRound s rc)

/-- The full Keccak-f[1600] permutation (24 rounds). -/
def keccakF (st : Nat) : Nat := keccakFGo keccakRC st

/-- Little-endian byte-list to natural number. -/
def leBytesToNat : List Nat → Nat
  | [] => 0
  | b :: rest => b % 256 + 256 * leBytesToNat rest

/-- `natToLeBytes k v` is the `k` little-endian bytes of `v`. -/
def natToLeBytes : Nat → Nat → List Nat
  | 0, _ => []
  | k + 1, v => v % 256 :: natToLeBytes k (v / 256)

/-- XOR one 136-byte block into the first 17 lanes of the state and permute. -/
def absorbBlock (st : Nat) (block : List Nat) : Nat :=
  keccakF (st ^^^ packLanes ((List.range 17).map (fun i =>
    leBytesToNat ((block.drop (8 * i)).take 8))))

/-- Absorb `n` consecutive 136-byte blocks of `l`. -/
def absorbBlocks : Nat → Nat → List Nat → Nat
  | 0, st, _ => st
  | n + 1, st, l => absorbBlocks n (absorbBlock st (l.take 136)) (l.drop 136)

/-- Keccak-256 of a byte list, as the 32-byte digest list. -/
def keccak256 (msg : List Nat) : List Nat :=
  let padLen := 136 - msg.length % 136
  let padded :=
    if padLen = 1 then msg ++ [0x81]
    else msg ++ (0x01 :: (List.replicate (padLen - 2) 0 ++ [0x80]))
  let st := absorbBlocks (padded.length / 136) 0 padded
  natToLeBytes 8 (lane st 0) ++ natToLeBytes 8 (lane st 1) ++
    natToLeBytes 8 (lane st 2) ++ natToLeBytes 8 (lane st 3)

/-- ASCII string to byte list (all strings hashed by the demos are ASCII,
so this agrees with `ethers.toUtf8Bytes`). -/
def asciiBytes (s : String) : List Nat := s.data.map Char.toNat

set_option maxHeartbeats 1000000 in
set_option maxRecDepth 10000 in
/-- Sanity anchor: the implementation reproduces the published Keccak-256
digest of the empty string. -/
theorem keccak256_nil_vector :
    keccak256 [] =
      [0xc5, 0xd2, 0x46, 0x01, 0x86, 0xf7, 0x23, 0x3c, 0x92, 0x7e, 0x7d, 0xb2, 0xdc, 0xc7,
       0x03, 0xc0, 0xe5, 0x00, 0xb6, 0x53, 0xca, 0x82, 0x27, 0x3b, 0x7b, 0xfa, 0xd8, 0x04,
       0x5d, 0x85, 0xa4, 0x70] := by
  decide

set_option maxHeartbeats 1000000 in
set_option maxRecDepth 10000 in
/-- Sanity anchor: the implementation reproduces the published Keccak-256
digest of the ASCII string "abc". -/
theorem keccak256_abc_vector :
    keccak256 (asciiBytes "abc") =
      [0x4e, 0x03, 0x65, 0x7a, 0xea, 0x45, 0xa9, 0x4f, 0xc7, 0xd4, 0x7b, 0xa8, 0x26, 0xc8,
       0xd6, 0x67, 0xc0, 0xd1, 0xe6, 0xe3, 0x3a, 0x64, 0xa0, 0x36, 0xec, 0x44, 0xf5, 0x8f,
       0xa1, 0x2d, 0x6c, 0x45] := by
  decide

/-! ## Order data model and ABI encoding

The order struct shared by all variants
(`manualLimitOrderDemo.js`, `part_000`): eight fields, `uint256`/`address`
values.  Addresses and amounts are naturals (`address` < 2^160,
`uint256` < 2^256); the ABI head-encoding of these primitive types is one
32-byte big-endian word per field.
-/

/-- `natToBeBytes k v`: the `k` big-endian bytes of `v`. -/
def natToBeBytes : Nat → Nat → List Nat
  | 0, _ => []
  | k + 1, v => natToBeBytes k (v / 256) ++ [v % 256]

/-- One 32-byte ABI word. -/
def be32 (v : Nat) : List Nat := natToBeBytes 32 v

/-- The 1inch V4 order struct (fields in the source's declared order). -/
structure OrderStruct where
  salt : Nat
  maker : Nat
  receiver : Nat
  makerAsset : Nat
  takerAsset : Nat
  makingAmount : Nat
  takingAmount : Nat
  makerTraits : Nat
  deriving DecidableEq, Repr

/-- `ethers.AbiCoder.defaultAbiCoder().encode` of the eight order fields, in
the order used by both `ManualLimitOrderDemo.createOrderHash` and the struct
hash of `Working1inchLimitOrder.generateOrderHash`:
salt, maker, receiver, makerAsset, takerAsset, makingAmount, takingAmount,
makerTraits. -/
def encodeOrderABI (o : OrderStruct) : List Nat :=
  be32 o.salt ++ be32 o.maker ++ be32 o.receiver ++ be32 o.makerAsset ++
    be32 o.takerAsset ++ be32 o.makingAmount ++ be32 o.takingAmount ++ be32 o.makerTraits

/-- `ManualLimitOrderDemo.createOrderHash` (manualLimitOrderDemo.js:42-48):
keccak256 of the ABI-encoded eight order fields, with no EIP-712 type hash
and no domain separator. -/
def createOrderHash (o : OrderStruct) : List Nat :=
  keccak256 (encodeOrderABI o)

/-- An EIP-712 domain descriptor (name, version, chainId, verifyingContract). -/
structure Eip712Domain where
  name : String
  version : String
  chainId : Nat
  verifyingContract : Nat
  deriving DecidableEq, Repr

/-- keccak256 of the EIP712Domain type string (generateOrderHash, part_000:224). -/
def eip712DomainTypeHash : List Nat :=
  keccak256 (asciiBytes "EIP712Domain(string name,string version,uint256 chainId,address verifyingContract)")

/-- keccak256 of the Order type string (generateOrderHash, part_000:237). -/
def orderTypeHash : List Nat :=
  keccak256 (asciiBytes "Order(uint256 salt,address maker,address receiver,address makerAsset,address takerAsset,uint256 makingAmount,uint256 takingAmount,uint256 makerTraits)")

/-- The domain separator computed by `generateOrderHash` (part_000:220-231):
keccak256 of the ABI encoding of (typeHash, nameHash, versionHash, chainId,
verifyingContract). -/
def domainSeparator (d : Eip712Domain) : List Nat :=
  keccak256 (eip712DomainTypeHash ++ keccak256 (asciiBytes d.name) ++
    keccak256 (asciiBytes d.version) ++ be32 d.chainId ++ be32 d.verifyingContract)

/-- The byte string fed to the struct-hash keccak by `generateOrderHash`
(part_000:233-248): ABI encoding of (orderTypeHash, salt, maker, receiver,
makerAsset, takerAsset, makingAmount, takingAmount, makerTraits). -/
def structHashInput (o : OrderStruct) : List Nat :=
  orderTypeHash ++ encodeOrderABI o

/-- The final byte string hashed by `generateOrderHash` (part_000:250-256):
"\x19\x01" ++ domainSeparator ++ structHash. -/
def eip712Input (o : OrderStruct) (d : Eip712Domain) : List Nat :=
  0x19 :: 0x01 :: (domainSeparator d ++ keccak256 (structHashInput o))

/-- `Working1inchLimitOrder.generateOrderHash` (part_000:218-257): the full
EIP-712 hash of the order under the given domain. -/
def generateOrderHash (o : OrderStruct) (d : Eip712Domain) : List Nat :=
  keccak256 (eip712Input o d)

/-- Token and protocol addresses used by the demos. -/
def WETH_ADDRESS : Nat := 0xC02aaA39b223FE8D0A0e5C4F27eAD9083C756Cc2
def USDC_ADDRESS : Nat := 0xA0b86991c6218b36c1d19D4a2e9Eb0cE3606eB48
def LIMIT_ORDER_PROTOCOL : Nat := 0x111111125421ca6dc452d289314280a0f8842a65

/-- The EIP-712 domain of `Working1inchLimitOrder.createManualOrderDemo`
(part_000:121-127). -/
def working1inchDomain : Eip712Domain :=
  { name := "Limit Order Protocol", version := "4", chainId := 1,
    verifyingContract := LIMIT_ORDER_PROTOCOL }

/-- A sample order used to compare the two hash implementations. -/
def sampleOrder : OrderStruct :=
  { salt := 1, maker := 2, receiver := 2, makerAsset := WETH_ADDRESS,
    takerAsset := USDC_ADDRESS, makingAmount := 10 ^ 18,
    takingAmount := 2500 * 10 ^ 6, makerTraits := 0 }

/-! ## Maker traits builders -/

/-- `Working1inchLimitOrder.createProperMakerTraits` (part_000:198-213):
start from zero, set bit 0 (partial fills), set bit 1 (multiple fills), OR in
the expiry (`Date.now()/1000 + 3600`) shifted to bit 160.  The current time
in seconds is passed explicitly. -/
def createProperMakerTraits (nowSec : Nat) : Nat :=
  let traits0 : Nat := 0
  let traits1 := traits0 ||| 1
  let traits2 := traits1 ||| (1 <<< 1)
  let expiration := nowSec + 3600
  traits2 ||| (expiration <<< 160)

/-- `Fixed1inchDemo.createMakerTraits` (manualLimitOrderDemo.js:332-344):
start from zero, set bit 255 (partial fill allowed) and bit 254 (multiple
fills allowed); no expiry. -/
def fixedCreateMakerTraits : Nat :=
  let traits0 : Nat := 0
  let traits1 := traits0 ||| (1 <<< 255)
  traits1 ||| (1 <<< 254)

/-! ## Decimal parsing and formatting

`ethers.parseEther` / `ethers.parseUnits` turn a decimal amount into an
integer count of smallest units; they throw when the amount has more
fractional digits than the unit allows.  The demos' caller-supplied amounts
are modelled as exact rationals; a non-integral (or negative) `q * 10 ^ d`
models the throwing case.  Since `q` is kept in lowest terms, `q * 10 ^ d`
is a nonnegative integer exactly when `q.den ∣ 10 ^ d ∧ 0 ≤ q.num`, and it
then equals `q.num * (10 ^ d / q.den)`; this formulation keeps the
definition inside natural/integer arithmetic, which the kernel evaluates
directly.  `ethers.formatUnits` renders an integer amount as a
decimal string with the fractional part's trailing zeros trimmed (but never
empty). -/

def parseUnitsQ (decimals : Nat) (q : ℚ) : Option Nat :=
  if q.den ∣ 10 ^ decimals ∧ 0 ≤ q.num then
    some (q.num.toNat * (10 ^ decimals / q.den))
  else none

def formatUnits (v : Nat) (d : Nat) : String :=
  let base := 10 ^ d
  let whole := v / base
  let fracRaw := toString (v % base)
  let fracPadded := List.replicate (d - fracRaw.length) '0' ++ fracRaw.data
  let trimmed := (fracPadded.reverse.dropWhile (fun c => c == '0')).reverse
  let fracFinal := if trimmed.isEmpty then ['0'] else trimmed
  toString whole ++ "." ++ String.mk fracFinal

/-! ## Balance checkers (claim C10)

Each exported balance checker wraps all its provider calls in one
`try`/`catch` whose `catch` returns an all-`'0'` record.  The provider calls
are modelled as `Option Nat` fields of an environment (`none` = the
underlying call throws); any `none` among the calls a checker makes lands in
the `catch` branch. -/

structure BalanceEnv where
  ethBalance : Option Nat
  wethBalance : Option Nat
  usdcBalance : Option Nat

structure Balances3 where
  eth : String
  weth : String
  usdc : String
  deriving DecidableEq, Repr

structure Balances2 where
  eth : String
  usdc : String
  deriving DecidableEq, Repr

/-- `checkTokenBalances` (manualLimitOrderDemo.js:214-241). -/
def checkTokenBalances (env : BalanceEnv) : Balances3 :=
  match env.ethBalance, env.wethBalance, env.usdcBalance with
  | some e, some w, some u =>
    { eth := formatUnits e 18, weth := formatUnits w 18, usdc := formatUnits u 6 }
  | _, _, _ => { eth := "0", weth := "0", usdc := "0" }

/-- `checkDemoBalances` (workingUniswapDemo.js:192-219); a source-level
duplicate of `checkTokenBalances`. -/
def checkDemoBalances (env : BalanceEnv) : Balances3 :=
  match env.ethBalance, env.wethBalance, env.usdcBalance with
  | some e, some w, some u =>
    { eth := formatUnits e 18, weth := formatUnits w 18, usdc := formatUnits u 6 }
  | _, _, _ => { eth := "0", weth := "0", usdc := "0" }

/-- `checkBalances` (workingLimitOrderDemo.js:310-329); reads only the ETH
and USDC balances. -/
def checkBalancesWorking (env : BalanceEnv) : Balances2 :=
  match env.ethBalance, env.usdcBalance with
  | some e, some u => { eth := formatUnits e 18, usdc := formatUnits u 6 }
  | _, _ => { eth := "0", usdc := "0" }

/-! ## Chain environment and workflow events

All stateful demo workflows are modelled as pure functions of a `ChainEnv`
(the observable chain state and clock) that return their result together
with the ordered list of side-effecting actions they issued. -/

structure ChainEnv where
  /-- address returned by `signer.getAddress()` -/
  signerAddress : Nat
  /-- `wethContract.balanceOf(walletAddress)` -/
  wethBalance : Nat
  /-- `usdcContract.balanceOf(walletAddress)` -/
  usdcBalance : Nat
  /-- `Date.now()` in milliseconds -/
  nowMs : Nat
  /-- `Math.floor(Math.random() * 1000)` used in part_000's salt -/
  saltRand : Nat
  /-- `router.getAmountsOut(amountIn, [WETH, USDC])[1]` -/
  getAmountsOut : Nat → Nat
  /-- `usdcContract.allowance(taker, LIMIT_ORDER_PROTOCOL)` -/
  usdcAllowance : Nat
  /-- the allowance re-read after the approval transaction confirms -/
  postApproveUsdcAllowance : Nat

inductive Token
  | weth
  | usdc
  deriving DecidableEq, BEq, Repr

inductive Ev
  | checkBalance (t : Token)
  | checkAllowance (t : Token)
  | orderBuilt
  | signed
  | approvalSent (t : Token)
  | fillSubmitted
  deriving DecidableEq, BEq, Repr

inductive DemoError
  | parseError
  | insufficientBalance (t : Token)
  | approvalIneffective
  deriving DecidableEq, BEq, Repr

/-- `allBefore p q tr` holds when every `p`-event in `tr` occurs strictly
before every `q`-event. -/
def allBefore (p q : Ev → Bool) : List Ev → Bool
  | [] => true
  | e :: rest =>
    (!(q e) || (!(p e) && rest.all (fun x => !(p x)))) && allBefore p q rest

/-- Events belonging to the balance/allowance precondition stage. -/
def isPrecondEv : Ev → Bool
  | .checkBalance _ => true
  | .checkAllowance _ => true
  | .approvalSent _ => true
  | _ => false

/-- The stage ordering asserted by the spec's state machine: all
precondition events before order construction, construction before signing,
signing before settlement. -/
def stageOrderOK (tr : List Ev) : Bool :=
  allBefore isPrecondEv (fun e => e == Ev.orderBuilt) tr &&
    allBefore (fun e => e == Ev.orderBuilt) (fun e => e == Ev.signed) tr &&
    allBefore (fun e => e == Ev.signed) (fun e => e == Ev.fillSubmitted) tr

/-! ## Workflow models -/

structure ManualResult where
  order : OrderStruct
  orderHash : List Nat
  deriving DecidableEq, Repr

/-- `ManualLimitOrderDemo.runDemo` (manualLimitOrderDemo.js:53-145).
Sequence as in the source: read WETH balance, parse the required amount and
abort on insufficient balance; parse the USDC amount (`ethAmount * 2500`);
build the order (salt = `Date.now()`, maker = receiver = wallet, traits 0);
sign; hash; approve WETH; read USDC balance and abort if insufficient;
approve USDC; submit `fillOrder`. -/
def manualRunDemo (env : ChainEnv) (ethAmount : ℚ) : Except DemoError ManualResult × List Ev :=
  let ev0 : List Ev := [.checkBalance .weth]
  match parseUnitsQ 18 ethAmount with
  | none => (.error .parseError, ev0)
  | some requiredWeth =>
    if env.wethBalance < requiredWeth then
      (.error (.insufficientBalance .weth), ev0)
    else
      match parseUnitsQ 6 (ethAmount * 2500) with
      | none => (.error .parseError, ev0)
      | some takingAmount =>
        let order : OrderStruct :=
          { salt := env.nowMs, maker := env.signerAddress, receiver := env.signerAddress,
            makerAsset := WETH_ADDRESS, takerAsset := USDC_ADDRESS,
            makingAmount := requiredWeth, takingAmount := takingAmount, makerTraits := 0 }
        let ev1 := ev0 ++ [.orderBuilt, .signed, .approvalSent .weth, .checkBalance .usdc]
        if env.usdcBalance < takingAmount then
          (.error (.insufficientBalance .usdc), ev1)
        else
          (.ok { order := order, orderHash := createOrderHash order },
            ev1 ++ [.approvalSent .usdc, .fillSubmitted])

/-- `OfficialSDKDemo.runDemo` (part_001:173-206): read WETH balance and
abort on insufficiency; `createOrder` (parse amounts, build, sign); then
`fillOrderManually` (approve WETH for the router, swap). -/
def officialRunDemo (env : ChainEnv) (ethAmount : ℚ) : Except DemoError Unit × List Ev :=
  let ev0 : List Ev := [.checkBalance .weth]
  match parseUnitsQ 18 ethAmount with
  | none => (.error .parseError, ev0)
  | some requiredWeth =>
    if env.wethBalance < requiredWeth then
      (.error (.insufficientBalance .weth), ev0)
    else
      match parseUnitsQ 6 (ethAmount * 2500) with
      | none => (.error .parseError, ev0)
      | some _ =>
        (.ok (), ev0 ++ [.orderBuilt, .signed, .approvalSent .weth, .fillSubmitted])

/-- `Working1inchLimitOrder.createManualOrderDemo` (part_000:77-193): the
order construction path.  `takingAmount` is the router quote for the parsed
making amount, the salt is `Date.now() + Math.floor(Math.random()*1000)`,
maker = receiver = wallet, traits from `createProperMakerTraits`. -/
def createManualOrderDemoM (env : ChainEnv) (wethAmount : ℚ) : Except DemoError OrderStruct × List Ev :=
  match parseUnitsQ 18 wethAmount with
  | none => (.error .parseError, [])
  | some makingAmount =>
    let order : OrderStruct :=
      { salt := env.nowMs + env.saltRand,
        maker := env.signerAddress, receiver := env.signerAddress,
        makerAsset := WETH_ADDRESS, takerAsset := USDC_ADDRESS,
        makingAmount := makingAmount,
        takingAmount := env.getAmountsOut makingAmount,
        makerTraits := createProperMakerTraits (env.nowMs / 1000) }
    (.ok order, [.orderBuilt, .signed])

/-- The precondition-and-fill segment of
`Working1inchLimitOrder.fillOrderAsTaker` (part_000:262-448): check the
taker's USDC balance; check the USDC allowance for the protocol; when the
allowance is below the required amount, send one approval (for twice the
requirement), await it, re-read the allowance and abort if still short;
finally attempt the fill (the demo's validity check, simulation and
fallback execution are abstracted as the single final submission event). -/
def fillOrderAsTakerTrace (env : ChainEnv) (takingAmount : Nat) : Except DemoError Unit × List Ev :=
  let ev0 : List Ev := [.checkBalance .usdc]
  if env.usdcBalance < takingAmount then
    (.error (.insufficientBalance .usdc), ev0)
  else
    let ev1 := ev0 ++ [.checkAllowance .usdc]
    if env.usdcAllowance < takingAmount then
      let ev2 := ev1 ++ [.approvalSent .usdc, .checkAllowance .usdc]
      if env.postApproveUsdcAllowance < takingAmount then
        (.error .approvalIneffective, ev2)
      else
        (.ok (), ev2 ++ [.fillSubmitted])
    else
      (.ok (), ev1 ++ [.fillSubmitted])

/-- The precondition-and-fill segment of `LimitOrderDemo.executeLimitOrder`
(limitOrderDemo.js:92-197): check the resolver's USDC balance; check the
allowance; approve (`MaxUint256`) only when the allowance is below the
required amount; then submit `fillOrder`. -/
def executeLimitOrderTrace (env : ChainEnv) (takingAmount : Nat) : Except DemoError Unit × List Ev :=
  let ev0 : List Ev := [.checkBalance .usdc]
  if env.usdcBalance < takingAmount then
    (.error (.insufficientBalance .usdc), ev0)
  else
    let ev1 := ev0 ++ [.checkAllowance .usdc]
    if env.usdcAllowance < takingAmount then
      (.ok (), ev1 ++ [.approvalSent .usdc, .fillSubmitted])
    else
      (.ok (), ev1 ++ [.fillSubmitted])

/-! ## Fallback router swap submitters (claim C6) -/

structure SwapCall where
  amountIn : Nat
  amountOutMin : Nat
  recipient : Nat
  deadline : Nat
  value : Nat
  deriving DecidableEq, Repr

/-- `WorkingUniswapDemo.swapETHForUSDC` (workingUniswapDemo.js:46-97):
deadline is `Math.floor(Date.now()/1000) + 1200`; the minimum output is the
quoted output times 95 over 100 in BigInt (floor) arithmetic. -/
def swapETHForUSDC (env : ChainEnv) (ethAmount : ℚ) : Option SwapCall :=
  match parseUnitsQ 18 ethAmount with
  | none => none
  | some amountIn =>
    let deadline := env.nowMs / 1000 + 1200
    let expectedOut := env.getAmountsOut amountIn
    some { amountIn := amountIn, amountOutMin := expectedOut * 95 / 100,
           recipient := env.signerAddress, deadline := deadline, value := amountIn }

/-- `SimpleUniswapDemo.executeSwap` (workingLimitOrderDemo.js:240-290):
identical quote, slippage and deadline computation. -/
def simpleUniswapExecuteSwap (env : ChainEnv) (ethAmount : ℚ) : Option SwapCall :=
  match parseUnitsQ 18 ethAmount with
  | none => none
  | some amountIn =>
    let deadline := env.nowMs / 1000 + 1200
    let expectedOut := env.getAmountsOut amountIn
    some { amountIn := amountIn, amountOutMin := expectedOut * 95 / 100,
           recipient := env.signerAddress, deadline := deadline, value := amountIn }

/-! ## The robust swap fallback (claim C1)

`RobustSwapDemo.runDemo` (RobustSwapDemo.js:44-97) tries the Uniswap path
and, when it throws, the 1inch direct path; the displayed result object is
modelled with an explicit `originalError` field so that the absence of any
error information in the displayed object is expressible (`none` = the
object carries no error field). -/

structure SwapExec where
  transactionHash : Nat
  deriving DecidableEq, Repr

structure RobustEnv where
  uniswapOutcome : Except String SwapExec
  oneInchOutcome : Except String SwapExec

structure DisplayedResult where
  method : String
  originalError : Option String
  execution : SwapExec
  deriving DecidableEq, Repr

inductive RobustOutcome
  | display (r : DisplayedResult)
  | failureMessage (msg : String)
  deriving DecidableEq, Repr

def robustRunDemo (env : RobustEnv) : RobustOutcome :=
  match env.uniswapOutcome with
  | .ok r => .display { method := "Uniswap V2", originalError := none, execution := r }
  | .error e1 =>
    match env.oneInchOutcome with
    | .ok r2 => .display { method := "1inch Direct", originalError := none, execution := r2 }
    | .error e2 =>
      .failureMessage ("Swap failed. Uniswap: " ++ e1 ++ ". 1inch: " ++ e2)

/-! ## Supporting lemmas -/

theorem natToLeBytes_length (k v : Nat) : (natToLeBytes k v).length = k := by
  induction k generalizing v with
  | zero => rfl
  | succ k ih => simp [natToLeBytes, ih]

theorem keccak256_length (msg : List Nat) : (keccak256 msg).length = 32 := by
  simp [keccak256, natToLeBytes_length]

theorem natToBeBytes_length (k v : Nat) : (natToBeBytes k v).length = k := by
  induction k generalizing v with
  | zero => rfl
  | succ k ih => simp [natToBeBytes, ih]

/-- Big-endian value of a byte list. -/
def beVal (l : List Nat) : Nat := l.foldl (fun a b => a * 256 + b) 0

theorem beVal_go (l : List Nat) (a : Nat) :
    l.foldl (fun x b => x * 256 + b) a = a * 256 ^ l.length + beVal l := by
  induction l generalizing a with
  | nil => simp [beVal]
  | cons b t ih =>
    simp only [beVal, List.foldl_cons, List.length_cons]
    rw [ih (a * 256 + b), ih (0 * 256 + b)]
    ring

theorem beVal_append (l1 l2 : List Nat) :
    beVal (l1 ++ l2) = beVal l1 * 256 ^ l2.length + beVal l2 := by
  simp only [beVal, List.foldl_append]
  exact beVal_go l2 _

theorem beVal_natToBeBytes (k v : Nat) : beVal (natToBeBytes k v) = v % 256 ^ k := by
  induction k generalizing v with
  | zero => simp [natToBeBytes, beVal, Nat.mod_one]
  | succ k ih =>
    rw [natToBeBytes, beVal_append, ih]
    have h1 : ([v % 256] : List Nat).length = 1 := rfl
    have h2 : beVal [v % 256] = v % 256 := by simp [beVal]
    rw [h1, h2, pow_one, pow_succ, Nat.mul_comm ((256 : Nat) ^ k) 256, Nat.mod_mul]
    ring

theorem beVal_be32 (v : Nat) (h : v < 2 ^ 256) : beVal (be32 v) = v := by
  rw [be32, beVal_natToBeBytes]
  exact Nat.mod_eq_of_lt (lt_of_lt_of_le h (by norm_num))

/-- The ABI encoding of the order fields is injective in the salt: two
orders that differ only in their (in-range) salt have different encodings. -/
theorem encodeOrderABI_salt_ne (s1 s2 m r ma ta mk tk tr : Nat)
    (h1 : s1 < 2 ^ 256) (h2 : s2 < 2 ^ 256) (hs : s1 ≠ s2) :
    encodeOrderABI ⟨s1, m, r, ma, ta, mk, tk, tr⟩ ≠
      encodeOrderABI ⟨s2, m, r, ma, ta, mk, tk, tr⟩ := by
  intro he
  apply hs
  have hv := congrArg beVal he
  simp only [encodeOrderABI, List.append_assoc] at hv
  rw [beVal_append (be32 s1), beVal_append (be32 s2), beVal_be32 _ h1, beVal_be32 _ h2] at hv
  exact Nat.eq_of_mul_eq_mul_right (by positivity) (Nat.add_right_cancel hv)

/-- Positivity of parsed amounts: a strictly positive rational amount that
parses successfully yields a strictly positive integer amount. -/
theorem parseUnitsQ_pos {d : Nat} {q : ℚ} {v : Nat}
    (hq : 0 < q) (h : parseUnitsQ d q = some v) : 0 < v := by
  simp only [parseUnitsQ] at h
  split_ifs at h with hc
  obtain ⟨hdvd, -⟩ := hc
  simp only [Option.some.injEq] at h
  subst h
  have hnum : 0 < q.num := Rat.num_pos.mpr hq
  have hquot : 0 < 10 ^ d / q.den :=
    Nat.div_pos (Nat.le_of_dvd (by positivity) hdvd) q.den_pos
  have hnn : 0 < q.num.toNat := by omega
  exact Nat.mul_pos hnn hquot

/-! ## Concrete environments used by witnesses and counterexamples -/

/-- An environment with empty balances and a router that quotes zero. -/
def emptyEnv : ChainEnv :=
  { signerAddress := 2, wethBalance := 0, usdcBalance := 0, nowMs := 0, saltRand := 0,
    getAmountsOut := fun _ => 0, usdcAllowance := 0, postApproveUsdcAllowance := 0 }

/-- An environment with ample balances, a zero allowance and a live quote. -/
def richEnv : ChainEnv :=
  { signerAddress := 2, wethBalance := 10 ^ 19, usdcBalance := 10 ^ 10, nowMs := 1000,
    saltRand := 3, getAmountsOut := fun _ => 3 * 10 ^ 9, usdcAllowance := 0,
    postApproveUsdcAllowance := 10 ^ 12 }

/-! ## Claim theorems -/

/-- C1 (counterexample): when the primary Uniswap path throws and the 1inch
fallback succeeds, `RobustSwapDemo.runDemo` displays only the fallback
outcome: the displayed result carries no error field (`originalError =
none`), and the display is identical for two runs whose primary paths threw
different revert reasons, so the original revert reason cannot be contained
in it. -/
theorem robust_fallback_drops_error_cex :
    robustRunDemo { uniswapOutcome := .error "execution reverted: insufficient counter-asset balance",
                    oneInchOutcome := .ok ⟨77⟩ } =
      .display { method := "1inch Direct", originalError := none, execution := ⟨77⟩ } ∧
    robustRunDemo { uniswapOutcome := .error "execution reverted: insufficient counter-asset balance",
                    oneInchOutcome := .ok ⟨77⟩ } =
      robustRunDemo { uniswapOutcome := .error "some other revert reason",
                      oneInchOutcome := .ok ⟨77⟩ } := by
  exact ⟨rfl, rfl⟩

/-- C1 (amended): when the primary fill path throws and the fallback
succeeds, the displayed result reports only the fallback method and
execution and discards the original error; both error messages are reported
only when both paths fail. -/
theorem robust_fallback_result (e1 e2 : String) (r : SwapExec) :
    robustRunDemo { uniswapOutcome := .error e1, oneInchOutcome := .ok r } =
      .display { method := "1inch Direct", originalError := none, execution := r } ∧
    robustRunDemo { uniswapOutcome := .error e1, oneInchOutcome := .error e2 } =
      .failureMessage ("Swap failed. Uniswap: " ++ e1 ++ ". 1inch: " ++ e2) := by
  exact ⟨rfl, rfl⟩

set_option maxHeartbeats 8000000 in
set_option maxRecDepth 10000 in
/-- C2 (counterexample): `ManualLimitOrderDemo.createOrderHash` and
`Working1inchLimitOrder.generateOrderHash` disagree on a concrete order
under the source's own domain, so the two hash implementations are not
equivalent. -/
theorem hash_impls_differ_cex :
    createOrderHash sampleOrder ≠ generateOrderHash sampleOrder working1inchDomain := by
  decide

/-- C2 (amended): the two hash implementations are not equivalent.  For
every order and every domain, `createOrderHash` hashes the raw 256-byte ABI
encoding of the eight fields while `generateOrderHash` hashes a 66-byte
EIP-712 envelope (type hash and domain separator included), so the byte
strings fed to keccak256 always differ; on a concrete order the digests
differ as well (see the counterexample). -/
theorem hash_impls_inputs_differ (o : OrderStruct) (d : Eip712Domain) :
    (encodeOrderABI o).length = 256 ∧ (eip712Input o d).length = 66 ∧
    encodeOrderABI o ≠ eip712Input o d := by
  have hl1 : (encodeOrderABI o).length = 256 := by
    simp [encodeOrderABI, be32, natToBeBytes_length]
  have hl2 : (eip712Input o d).length = 66 := by
    simp [eip712Input, domainSeparator, keccak256_length]
  refine ⟨hl1, hl2, fun he => ?_⟩
  rw [he, hl2] at hl1
  omega

/-- C6: every fallback router swap submits a minimum output of exactly
`floor(E * 95 / 100)` for the quoted output `E` (natural-number division is
floor division) and a deadline of exactly the submission timestamp plus
1200 seconds, in both `WorkingUniswapDemo.swapETHForUSDC` and
`SimpleUniswapDemo.executeSwap`. -/
theorem fallback_swap_parameters (env : ChainEnv) (q : ℚ) (a : Nat)
    (hp : parseUnitsQ 18 q = some a) :
    swapETHForUSDC env q = some
      { amountIn := a, amountOutMin := env.getAmountsOut a * 95 / 100,
        recipient := env.signerAddress, deadline := env.nowMs / 1000 + 1200, value := a } ∧
    simpleUniswapExecuteSwap env q = some
      { amountIn := a, amountOutMin := env.getAmountsOut a * 95 / 100,
        recipient := env.signerAddress, deadline := env.nowMs / 1000 + 1200, value := a } := by
  constructor <;> simp [swapETHForUSDC, simpleUniswapExecuteSwap, hp]

/-- C6 witness: the theorem applied to a concrete environment and amount. -/
theorem fallback_swap_parameters_witness :
    parseUnitsQ 18 (1 : ℚ) = some (10 ^ 18) ∧
    swapETHForUSDC richEnv 1 = some
      { amountIn := 10 ^ 18, amountOutMin := 3 * 10 ^ 9 * 95 / 100,
        recipient := 2, deadline := 1 + 1200, value := 10 ^ 18 } :=
  ⟨by decide, (fallback_swap_parameters richEnv 1 (10 ^ 18) (by decide)).1⟩

/-- C10: each exported balance checker is total: when any of its underlying
provider calls fails it returns the all-`"0"` record, and when they all
succeed it returns the formatted balances. -/
theorem balance_checkers_total (env : BalanceEnv) :
    ((env.ethBalance = none ∨ env.wethBalance = none ∨ env.usdcBalance = none) →
      checkTokenBalances env = { eth := "0", weth := "0", usdc := "0" } ∧
      checkDemoBalances env = { eth := "0", weth := "0", usdc := "0" }) ∧
    (∀ e w u, env.ethBalance = some e → env.wethBalance = some w → env.usdcBalance = some u →
      checkTokenBalances env =
        { eth := formatUnits e 18, weth := formatUnits w 18, usdc := formatUnits u 6 } ∧
      checkDemoBalances env =
        { eth := formatUnits e 18, weth := formatUnits w 18, usdc := formatUnits u 6 }) ∧
    ((env.ethBalance = none ∨ env.usdcBalance = none) →
      checkBalancesWorking env = { eth := "0", usdc := "0" }) ∧
    (∀ e u, env.ethBalance = some e → env.usdcBalance = some u →
      checkBalancesWorking env = { eth := formatUnits e 18, usdc := formatUnits u 6 }) := by
  cases he : env.ethBalance <;> cases hw : env.wethBalance <;> cases hu : env.usdcBalance <;>
    simp_all [checkTokenBalances, checkDemoBalances, checkBalancesWorking]

/-- C3: when the maker's WETH balance is strictly below the parsed offered
amount, both `ManualLimitOrderDemo.runDemo` and `OfficialSDKDemo.runDemo`
abort with the insufficient-balance error right after the balance check: no
order is built, nothing is signed, and no approval or settlement
transaction is issued. -/
theorem insufficient_balance_aborts (env : ChainEnv) (q : ℚ) (reqW : Nat)
    (hp : parseUnitsQ 18 q = some reqW) (hlt : env.wethBalance < reqW) :
    manualRunDemo env q = (.error (.insufficientBalance .weth), [.checkBalance .weth]) ∧
    officialRunDemo env q = (.error (.insufficientBalance .weth), [.checkBalance .weth]) ∧
    Ev.orderBuilt ∉ (manualRunDemo env q).2 ∧ Ev.signed ∉ (manualRunDemo env q).2 ∧
    (∀ t, Ev.approvalSent t ∉ (manualRunDemo env q).2) ∧
    Ev.fillSubmitted ∉ (manualRunDemo env q).2 ∧
    Ev.orderBuilt ∉ (officialRunDemo env q).2 ∧ Ev.signed ∉ (officialRunDemo env q).2 ∧
    (∀ t, Ev.approvalSent t ∉ (officialRunDemo env q).2) ∧
    Ev.fillSubmitted ∉ (officialRunDemo env q).2 := by
  have hm : manualRunDemo env q =
      (.error (.insufficientBalance .weth), [.checkBalance .weth]) := by
    simp [manualRunDemo, hp, hlt]
  have ho : officialRunDemo env q =
      (.error (.insufficientBalance .weth), [.checkBalance .weth]) := by
    simp [officialRunDemo, hp, hlt]
  refine ⟨hm, ho, ?_, ?_, ?_, ?_, ?_, ?_, ?_, ?_⟩ <;> intros <;> simp [hm, ho]

/-- C3 witness: the theorem applied to a concrete zero-balance environment. -/
theorem insufficient_balance_aborts_witness :
    parseUnitsQ 18 (1 : ℚ) = some (10 ^ 18) ∧ emptyEnv.wethBalance < 10 ^ 18 ∧
    manualRunDemo emptyEnv 1 =
      (.error (.insufficientBalance .weth), [.checkBalance .weth]) :=
  ⟨by decide, by decide,
   (insufficient_balance_aborts emptyEnv 1 (10 ^ 18) (by decide) (by decide)).1⟩

/-- C4 (counterexample): a successful `ManualLimitOrderDemo.runDemo` run
violates the claimed stage ordering: the WETH approval — a
precondition-stage action — is issued after the order is built and signed,
so not all balance/allowance preconditions complete before order
construction. -/
theorem stage_order_cex : stageOrderOK (manualRunDemo richEnv 1).2 = false := by
  have h : (1 : ℚ) * 2500 = 2500 := by norm_num
  simp only [manualRunDemo, h]
  decide

/-- C4 (amended): every successful `ManualLimitOrderDemo.runDemo` run
issues exactly the sequence WETH-balance check, order construction,
signing, WETH approval, USDC balance check, USDC approval, settlement
submission: the offered-asset balance check precedes construction,
construction precedes signing, and signing precedes settlement, but the
approval calls (and the USDC balance check) occur after signing rather than
before order construction. -/
theorem manual_demo_stage_order (env : ChainEnv) (q : ℚ) (reqW tk : Nat)
    (hp : parseUnitsQ 18 q = some reqW) (ht : parseUnitsQ 6 (q * 2500) = some tk)
    (hw : ¬ env.wethBalance < reqW) (hu : ¬ env.usdcBalance < tk) :
    (manualRunDemo env q).2 =
      [.checkBalance .weth, .orderBuilt, .signed, .approvalSent .weth,
       .checkBalance .usdc, .approvalSent .usdc, .fillSubmitted] ∧
    allBefore (fun e => e == Ev.checkBalance Token.weth) (fun e => e == Ev.orderBuilt)
      (manualRunDemo env q).2 = true ∧
    allBefore (fun e => e == Ev.orderBuilt) (fun e => e == Ev.signed)
      (manualRunDemo env q).2 = true ∧
    allBefore (fun e => e == Ev.signed) (fun e => e == Ev.fillSubmitted)
      (manualRunDemo env q).2 = true ∧
    allBefore (fun e => e == Ev.signed) (fun e => e == Ev.approvalSent Token.weth)
      (manualRunDemo env q).2 = true := by
  have htr : (manualRunDemo env q).2 =
      [.checkBalance .weth, .orderBuilt, .signed, .approvalSent .weth,
       .checkBalance .usdc, .approvalSent .usdc, .fillSubmitted] := by
    simp [manualRunDemo, hp, ht, hw, hu]
  refine ⟨htr, ?_, ?_, ?_, ?_⟩ <;> rw [htr] <;> decide

/-- C4 witness: the amended theorem applied to a funded environment. -/
theorem manual_demo_stage_order_witness :
    (manualRunDemo richEnv 1).2 =
      [.checkBalance .weth, .orderBuilt, .signed, .approvalSent .weth,
       .checkBalance .usdc, .approvalSent .usdc, .fillSubmitted] :=
  (manual_demo_stage_order richEnv 1 (10 ^ 18) 2500000000 (by decide)
    (by rw [show (1 : ℚ) * 2500 = 2500 by norm_num]; decide)
    (by decide) (by decide)).1

/-- C5: `createProperMakerTraits` returns a traits word with bit 0 set, bit
1 set, the expiry (current seconds + 3600) in the bits from 160 up, and all
bits from 2 to 159 clear; `Fixed1inchDemo.createMakerTraits` returns the
word with exactly bits 254 and 255 set. -/
theorem maker_traits_layout :
    (∀ nowSec : Nat,
      (createProperMakerTraits nowSec).testBit 0 = true ∧
      (createProperMakerTraits nowSec).testBit 1 = true ∧
      createProperMakerTraits nowSec >>> 160 = nowSec + 3600 ∧
      (∀ i : Nat, 2 ≤ i → i < 160 → (createProperMakerTraits nowSec).testBit i = false)) ∧
    fixedCreateMakerTraits = 2 ^ 254 + 2 ^ 255 ∧
    fixedCreateMakerTraits.testBit 254 = true ∧
    fixedCreateMakerTraits.testBit 255 = true ∧
    (∀ i : Nat, i ≠ 254 → i ≠ 255 → fixedCreateMakerTraits.testBit i = false) := by
  have hcp : ∀ nowSec : Nat,
      createProperMakerTraits nowSec = 3 ||| ((nowSec + 3600) <<< 160) := by
    intro nowSec
    have h3 : ((0 : Nat) ||| 1) ||| (1 <<< 1) = 3 := by decide
    simp only [createProperMakerTraits]
    rw [h3]
  refine ⟨fun nowSec => ⟨?_, ?_, ?_, ?_⟩, by decide, by decide, by decide, ?_⟩
  · have h30 : (3 : Nat).testBit 0 = true := by decide
    rw [hcp nowSec, Nat.testBit_lor, h30, Bool.true_or]
  · have h31 : (3 : Nat).testBit 1 = true := by decide
    rw [hcp nowSec, Nat.testBit_lor, h31, Bool.true_or]
  · apply Nat.eq_of_testBit_eq
    intro j
    rw [Nat.testBit_shiftRight, hcp nowSec, Nat.testBit_lor, Nat.testBit_shiftLeft]
    have h3f : (3 : Nat).testBit (160 + j) = false := by
      apply Nat.testBit_lt_two_pow
      calc (3 : Nat) < 2 ^ 2 := by norm_num
        _ ≤ 2 ^ (160 + j) := Nat.pow_le_pow_right (by norm_num) (by omega)
    have hge : 160 ≤ 160 + j := Nat.le_add_right 160 j
    simp [h3f, hge]
  · intro i h2i hi160
    rw [hcp nowSec, Nat.testBit_lor, Nat.testBit_shiftLeft]
    have h3f : (3 : Nat).testBit i = false :=
      Nat.testBit_lt_two_pow
        (lt_of_lt_of_le (by norm_num) (Nat.pow_le_pow_right (by norm_num) h2i))
    have hnge : ¬ 160 ≤ i := by omega
    simp [h3f, hnge]
  · intro i h254 h255
    have hfix : fixedCreateMakerTraits = 2 ^ 255 ||| 2 ^ 254 := by decide
    rw [hfix, Nat.testBit_lor, Nat.testBit_two_pow_of_ne (Ne.symm h255),
      Nat.testBit_two_pow_of_ne (Ne.symm h254)]
    rfl

/-- C5 witness: the theorem applied at a concrete clock value and concrete
bit positions. -/
theorem maker_traits_layout_witness :
    (createProperMakerTraits 1000).testBit 0 = true ∧
    (createProperMakerTraits 1000).testBit 5 = false ∧
    fixedCreateMakerTraits.testBit 7 = false :=
  ⟨(maker_traits_layout.1 1000).1,
   (maker_traits_layout.1 1000).2.2.2 5 (by decide) (by decide),
   maker_traits_layout.2.2.2.2 7 (by decide) (by decide)⟩

/-- C7: the allowance precondition issues an approval exactly when the
current allowance is strictly below the required amount — one approval,
preceding the fill attempt — and no approval otherwise, both in
`Working1inchLimitOrder.fillOrderAsTaker` and in
`LimitOrderDemo.executeLimitOrder`. -/
theorem approval_iff_allowance_insufficient (env : ChainEnv) (tk : Nat)
    (hb : ¬ env.usdcBalance < tk) :
    ((fillOrderAsTakerTrace env tk).2.count (Ev.approvalSent Token.usdc) =
      if env.usdcAllowance < tk then 1 else 0) ∧
    allBefore (fun e => e == Ev.approvalSent Token.usdc) (fun e => e == Ev.fillSubmitted)
      (fillOrderAsTakerTrace env tk).2 = true ∧
    ((executeLimitOrderTrace env tk).2.count (Ev.approvalSent Token.usdc) =
      if env.usdcAllowance < tk then 1 else 0) ∧
    allBefore (fun e => e == Ev.approvalSent Token.usdc) (fun e => e == Ev.fillSubmitted)
      (executeLimitOrderTrace env tk).2 = true := by
  by_cases ha : env.usdcAllowance < tk
  · by_cases hpa : env.postApproveUsdcAllowance < tk
    · simp only [fillOrderAsTakerTrace, executeLimitOrderTrace, if_neg hb, if_pos ha,
        if_pos hpa]
      decide
    · simp only [fillOrderAsTakerTrace, executeLimitOrderTrace, if_neg hb, if_pos ha,
        if_neg hpa]
      decide
  · simp only [fillOrderAsTakerTrace, executeLimitOrderTrace, if_neg hb, if_neg ha]
    decide

/-- C7 witness: the theorem applied to a funded taker with zero prior
allowance. -/
theorem approval_iff_allowance_insufficient_witness :
    (fillOrderAsTakerTrace richEnv 2500000000).2.count (Ev.approvalSent Token.usdc) =
      if richEnv.usdcAllowance < 2500000000 then 1 else 0 :=
  (approval_iff_allowance_insufficient richEnv 2500000000 (by decide)).1

/-- C8: both order-hash pipelines incorporate the salt as a dedicated
32-byte word of the byte string they hash, so under any collision-free
(injective) hash function, two orders identical except for distinct
in-range salts produce distinct hashes — both for the flat ABI encoding
hashed by `createOrderHash` and for the struct-hash input of
`generateOrderHash`. -/
theorem salt_distinguishes_hashes (h : List Nat → Nat) (hinj : Function.Injective h)
    (s1 s2 m r ma ta mk tk tr : Nat)
    (hb1 : s1 < 2 ^ 256) (hb2 : s2 < 2 ^ 256) (hs : s1 ≠ s2) :
    h (encodeOrderABI ⟨s1, m, r, ma, ta, mk, tk, tr⟩) ≠
      h (encodeOrderABI ⟨s2, m, r, ma, ta, mk, tk, tr⟩) ∧
    h (structHashInput ⟨s1, m, r, ma, ta, mk, tk, tr⟩) ≠
      h (structHashInput ⟨s2, m, r, ma, ta, mk, tk, tr⟩) := by
  constructor
  · exact fun he => encodeOrderABI_salt_ne s1 s2 m r ma ta mk tk tr hb1 hb2 hs (hinj he)
  · intro he
    have h3 := hinj he
    simp only [structHashInput] at h3
    exact encodeOrderABI_salt_ne s1 s2 m r ma ta mk tk tr hb1 hb2 hs
      (List.append_cancel_left h3)

/-- C8 witness: the theorem applied to a concrete injective hash function
and a concrete salt-differing pair of orders. -/
theorem salt_distinguishes_hashes_witness :
    Function.Injective (Encodable.encode : List Nat → Nat) ∧
    Encodable.encode (encodeOrderABI ⟨0, 1, 1, 2, 3, 4, 5, 6⟩) ≠
      Encodable.encode (encodeOrderABI ⟨1, 1, 1, 2, 3, 4, 5, 6⟩) :=
  ⟨Encodable.encode_injective,
   (salt_distinguishes_hashes Encodable.encode Encodable.encode_injective 0 1 1 1 2 3 4 5 6
      (by positivity) (by norm_num) (by decide)).1⟩

/-- C9 (counterexample): `Working1inchLimitOrder.createManualOrderDemo`
constructs an order whose takingAmount is zero when the router quotes zero
for a positive input amount, so not every constructed order has a strictly
positive requested amount. -/
theorem zero_quote_order_cex :
    (0 : ℚ) < 1 ∧
    ((createManualOrderDemoM emptyEnv 1).1.toOption.map OrderStruct.takingAmount) = some 0 := by
  refine ⟨by norm_num, ?_⟩
  decide

/-- C9 (amended): orders built by `ManualLimitOrderDemo.runDemo` have maker
equal to the signing account and, for positive caller input, strictly
positive making and taking amounts; orders built by
`Working1inchLimitOrder.createManualOrderDemo` have maker equal to the
signing account and a positive making amount, but their taking amount is
the raw router quote and is positive only when that quote is positive. -/
theorem order_invariants :
    (∀ (env : ChainEnv) (q : ℚ) (res : ManualResult), 0 < q →
      (manualRunDemo env q).1 = .ok res →
      res.order.maker = env.signerAddress ∧ 0 < res.order.makingAmount ∧
        0 < res.order.takingAmount) ∧
    (∀ (env : ChainEnv) (q : ℚ) (ord : OrderStruct), 0 < q →
      (createManualOrderDemoM env q).1 = .ok ord →
      ord.maker = env.signerAddress ∧ 0 < ord.makingAmount ∧
        (0 < env.getAmountsOut ord.makingAmount → 0 < ord.takingAmount)) := by
  constructor
  · intro env q res hq hok
    cases hp : parseUnitsQ 18 q with
    | none => simp [manualRunDemo, hp] at hok
    | some reqW =>
      cases ht : parseUnitsQ 6 (q * 2500) with
      | none =>
        simp only [manualRunDemo, hp] at hok
        split_ifs at hok
        all_goals simp [ht] at hok
      | some tk =>
        simp only [manualRunDemo, hp, ht] at hok
        split_ifs at hok with h1 h2
        all_goals simp at hok
        obtain rfl := hok.symm
        exact ⟨rfl, parseUnitsQ_pos hq hp,
          parseUnitsQ_pos (mul_pos hq (by norm_num)) ht⟩
  · intro env q ord hq hok
    cases hp : parseUnitsQ 18 q with
    | none => simp [createManualOrderDemoM, hp] at hok
    | some making =>
      simp only [createManualOrderDemoM, hp] at hok
      simp at hok
      obtain rfl := hok.symm
      exact ⟨rfl, parseUnitsQ_pos hq hp, fun hquote => hquote⟩

/-- The concrete result of `manualRunDemo richEnv 1`, used by the C9
witness. -/
def manualWitnessResult : ManualResult :=
  { order := { salt := 1000, maker := 2, receiver := 2, makerAsset := WETH_ADDRESS,
               takerAsset := USDC_ADDRESS, makingAmount := 10 ^ 18,
               takingAmount := 2500000000, makerTraits := 0 },
    orderHash := [130, 175, 236, 8, 239, 164, 148, 62, 123, 228, 91, 81, 188, 144, 136, 79,
                  77, 174, 139, 176, 70, 16, 122, 205, 142, 128, 35, 89, 114, 131, 144, 110] }

set_option maxRecDepth 10000 in
set_option maxHeartbeats 4000000 in
/-- C9 witness: the amended theorem applied to a funded environment and a
concrete successful run. -/
theorem order_invariants_witness :
    (0 : ℚ) < 1 ∧ (manualRunDemo richEnv 1).1 = .ok manualWitnessResult ∧
    (manualWitnessResult.order.maker = richEnv.signerAddress ∧
      0 < manualWitnessResult.order.makingAmount ∧
      0 < manualWitnessResult.order.takingAmount) := by
  have h1 : (0 : ℚ) < 1 := by norm_num
  have h2 : (manualRunDemo richEnv 1).1 = .ok manualWitnessResult := by
    have h : (1 : ℚ) * 2500 = 2500 := by norm_num
    simp only [manualRunDemo, h]
    rfl
  exact ⟨h1, h2, order_invariants.1 richEnv 1 manualWitnessResult h1 h2⟩

/-- C10 witness: the theorem applied at a failing and a succeeding
environment. -/
theorem balance_checkers_total_witness :
    checkTokenBalances ⟨none, some 5, some 7⟩ = { eth := "0", weth := "0", usdc := "0" } ∧
    checkBalancesWorking ⟨some (10 ^ 18), some 5, some 2500000⟩ =
      { eth := formatUnits (10 ^ 18) 18, usdc := formatUnits 2500000 6 } :=
  ⟨((balance_checkers_total _).1 (Or.inl rfl)).1,
   (balance_checkers_total _).2.2.2 (10 ^ 18) 2500000 rfl rfl⟩

end Unite
